import Mathlib

/-!
Verification of the Elevoniq data-pipeline core (src/main.py, src/config.py).

The Python source is shallowly embedded:
* remote calls (Salesforce login, query, query_more) are modelled as
  explicit oracles (functions from a global call index to a response),
  so that call counts and call traces are observable;
* exceptions are modelled with `Except String`;
* the unbounded `while not records['done']` pagination loop is modelled
  with an explicit fuel parameter, `none` meaning "fuel exhausted"
  (distinct from any behaviour of the source);
* the pipeline state (workbook sheets, standalone csv files, statistics,
  logged errors) is threaded explicitly.
-/

namespace Elevoniq

/-! ## Retry wrapper (src/main.py lines 33-51 `SalesforceClient.login` and
lines 66-88 `SalesforceClient.fetch_data` share this loop shape:
`for i in range(5): try: return op() except: sleep` then
`raise Exception(<fixed message>)`).

`op` is the underlying zero-argument fallible operation, indexed by the
number of calls already made so that call-dependent outcomes (fail k
times, then succeed) are expressible.  The sleep and the jitter are
timing side effects with no influence on results or call counts and are
not modelled.  The final `raise` uses a fixed message (`failMsg`) that
does not mention the operation's own failures, exactly as in the source
(`"Max retries reached, Salesforce login failed."` at line 51,
`f"Max retries reached, query failed for {object_name}"` at line 88). -/

/-- One retry loop with `n` attempts left, having already made `calls`
calls; returns the result together with the total number of underlying
calls made. -/
def retryRun (op : Nat → Except String α) (failMsg : String) :
    Nat → Nat → Except String α × Nat
  | 0, calls => (Except.error failMsg, calls)
  | n + 1, calls =>
    match op calls with
    | Except.ok a => (Except.ok a, calls + 1)
    | Except.error _ => retryRun op failMsg n (calls + 1)

/-- The retry wrapper as used in the source: `retries = 5`, starting
from zero calls. -/
def retry5 (op : Nat → Except String α) (failMsg : String) :
    Except String α × Nat :=
  retryRun op failMsg 5 0

/-- `SalesforceClient.login` (src/main.py:33-51): the retry wrapper
instantiated with the login operation and the login failure message. -/
def login (op : Nat → Except String α) : Except String α × Nat :=
  retry5 op "Max retries reached, Salesforce login failed."

/-- If the operation succeeds at call index `k` (after `k` failures),
the wrapper returns that success and has made `k + 1` calls. -/
lemma retryRun_succeeds (op : Nat → Except String α) (failMsg : String)
    (a : α) :
    ∀ k n calls, k < n →
      (∀ i, i < k → ∃ e, op (calls + i) = Except.error e) →
      op (calls + k) = Except.ok a →
      retryRun op failMsg n calls = (Except.ok a, calls + (k + 1)) := by
  intro k
  induction k with
  | zero =>
    intro n calls hk _ hok
    obtain ⟨m, rfl⟩ := Nat.exists_eq_succ_of_ne_zero (Nat.pos_iff_ne_zero.mp hk)
    simp only [retryRun]
    rw [show calls + 0 = calls from rfl] at hok
    rw [hok]
  | succ k ih =>
    intro n calls hk hfail hok
    obtain ⟨m, rfl⟩ := Nat.exists_eq_succ_of_ne_zero (Nat.pos_iff_ne_zero.mp (Nat.lt_of_le_of_lt (Nat.zero_le _) hk))
    obtain ⟨e, he⟩ := hfail 0 (Nat.succ_pos k)
    rw [show calls + 0 = calls from rfl] at he
    simp only [retryRun, he]
    have h1 : retryRun op failMsg m (calls + 1) = (Except.ok a, (calls + 1) + (k + 1)) := by
      refine ih m (calls + 1) (Nat.lt_of_succ_lt_succ hk) ?_ ?_
      · intro i hi
        obtain ⟨e', he'⟩ := hfail (i + 1) (Nat.succ_lt_succ hi)
        exact ⟨e', by rw [show calls + 1 + i = calls + (i + 1) by omega]; exact he'⟩
      · rw [show calls + 1 + k = calls + (k + 1) by omega]
        exact hok
    rw [h1]
    have : calls + 1 + (k + 1) = calls + (k + 1 + 1) := by omega
    rw [this]

/-- If the operation fails on every one of the `n` attempts, the wrapper
makes exactly `n` calls and returns the fixed failure message. -/
lemma retryRun_exhausts (op : Nat → Except String α) (failMsg : String) :
    ∀ n calls, (∀ i, i < n → ∃ e, op (calls + i) = Except.error e) →
      retryRun op failMsg n calls = (Except.error failMsg, calls + n) := by
  intro n
  induction n with
  | zero => intro calls _; simp [retryRun]
  | succ m ih =>
    intro calls hfail
    obtain ⟨e, he⟩ := hfail 0 (Nat.succ_pos m)
    rw [show calls + 0 = calls from rfl] at he
    simp only [retryRun, he]
    have h1 : retryRun op failMsg m (calls + 1) = (Except.error failMsg, (calls + 1) + m) := by
      refine ih (calls + 1) ?_
      intro i hi
      obtain ⟨e', he'⟩ := hfail (i + 1) (Nat.succ_lt_succ hi)
      exact ⟨e', by rw [show calls + 1 + i = calls + (i + 1) by omega]; exact he'⟩
    rw [h1]
    have : calls + 1 + m = calls + (m + 1) := by omega
    rw [this]

/-- Claim C1 (amended): under the retry wrapper with its maximum of 5
attempts, an operation that fails exactly `k` times and then succeeds
(`k < 5`) yields the success result after exactly `k + 1` underlying
calls; an operation that fails on every attempt is called exactly 5
times and the wrapper then fails with the fixed max-retries message
(which does not carry the last underlying failure). -/
theorem retry_call_count (op : Nat → Except String α) (failMsg : String) :
    (∀ k a, k < 5 → (∀ i, i < k → ∃ e, op i = Except.error e) →
      op k = Except.ok a → retry5 op failMsg = (Except.ok a, k + 1)) ∧
    ((∀ i, i < 5 → ∃ e, op i = Except.error e) →
      retry5 op failMsg = (Except.error failMsg, 5)) := by
  constructor
  · intro k a hk hfail hok
    have h := retryRun_succeeds op failMsg a k 5 0 hk
      (by intro i hi; simpa using hfail i hi) (by simpa using hok)
    simpa [retry5] using h
  · intro hfail
    have h := retryRun_exhausts op failMsg 5 0
      (by intro i hi; simpa using hfail i hi)
    simpa [retry5] using h

/-- Operation that fails twice and then returns 7, used as a concrete
instance for the retry theorems. -/
def opFailTwice : Nat → Except String Nat :=
  fun i => if i < 2 then Except.error "transient failure" else Except.ok 7

/-- Witness for C1: at concrete inputs, the wrapper returns the success
after 3 calls when the operation fails twice then succeeds, and returns
the fixed message after 5 calls when the operation always fails. -/
theorem retry_call_count_witness :
    retry5 opFailTwice "max retries" = (Except.ok 7, 3) ∧
    retry5 (fun _ => (Except.error "always" : Except String Nat)) "max retries"
      = (Except.error "max retries", 5) := by
  constructor
  · exact (retry_call_count opFailTwice "max retries").1 2 7 (by decide)
      (fun i hi => ⟨"transient failure", by simp [opFailTwice, hi]⟩)
      rfl
  · exact (retry_call_count (fun _ => (Except.error "always" : Except String Nat))
      "max retries").2 (fun i _ => ⟨"always", rfl⟩)

/-- Counterexample for C1 as stated: two operations that fail on every
attempt with different underlying failures produce bit-for-bit identical
wrapper results, so the exhaustion error cannot carry the last
underlying failure; the wrapper's error is the fixed max-retries
message. -/
theorem retry_error_payload_counterexample :
    retry5 (fun _ => (Except.error "first failure" : Except String Nat))
        "Max retries reached, Salesforce login failed."
      = retry5 (fun _ => (Except.error "second failure" : Except String Nat))
        "Max retries reached, Salesforce login failed."
    ∧ ("first failure" : String) ≠ "second failure"
    ∧ (retry5 (fun _ => (Except.error "first failure" : Except String Nat))
        "Max retries reached, Salesforce login failed.").1
      = Except.error "Max retries reached, Salesforce login failed." := by
  refine ⟨rfl, by decide, rfl⟩

/-! ## Paginated fetch (src/main.py lines 66-88 `SalesforceClient.fetch_data`).

The Salesforce query API is modelled as an oracle `resp` mapping the
global call index and the call made (`query soql` for `self.sf.query`,
`queryMore url` for `self.sf.query_more`) to either an exception or a
query result `{records, done, nextRecordsUrl}`.  The embedding also
returns the total number of underlying calls and the full ordered call
trace, so that claims about which calls are (re)issued are statable. -/

/-- Result of `self.sf.query` / `self.sf.query_more`: the page's
records, the `done` flag, and the optional `nextRecordsUrl`. -/
structure QueryResult (R : Type) where
  records : List R
  done : Bool
  nextRecordsUrl : Option String
deriving Repr, DecidableEq

/-- An underlying Salesforce call made by `fetch_data`. -/
inductive SFCall where
  | query (soql : String)
  | queryMore (url : Option String)
deriving Repr, DecidableEq

/-- The SOQL string built at src/main.py:68:
`"SELECT " + joined fields + " FROM " + object_name`. -/
def soqlOf (objectName : String) (fields : List String) : String :=
  "SELECT " ++ String.intercalate ", " fields ++ " FROM " ++ objectName

/-- The `while not records.get('done')` loop (src/main.py:78-81), with
fuel (`none` = fuel ran out; the source would keep looping).  State: the
last query result, the accumulated records (`all_records`), the current
`next_records_url`, the number of calls made so far, and the call trace. -/
def pageWhile (resp : Nat → SFCall → Except String (QueryResult R)) :
    Nat → QueryResult R → List R → Option String → Nat → List SFCall →
    Option (Except String (List R) × Nat × List SFCall)
  | 0, records, acc, _, calls, tr =>
    if records.done then some (Except.ok acc, calls, tr) else none
  | fuel + 1, records, acc, url, calls, tr =>
    if records.done then some (Except.ok acc, calls, tr)
    else
      match resp calls (SFCall.queryMore url) with
      | Except.error e =>
        some (Except.error e, calls + 1, tr ++ [SFCall.queryMore url])
      | Except.ok r =>
        pageWhile resp fuel r (acc ++ r.records) r.nextRecordsUrl (calls + 1)
          (tr ++ [SFCall.queryMore url])

/-- One iteration of the retry loop's `try:` block (src/main.py:73-83):
the initial `self.sf.query` followed by the pagination loop.  An
`Except.error` outcome is the exception caught at line 84. -/
def attemptFetch (resp : Nat → SFCall → Except String (QueryResult R))
    (soql : String) (fuel calls : Nat) (tr : List SFCall) :
    Option (Except String (List R) × Nat × List SFCall) :=
  match resp calls (SFCall.query soql) with
  | Except.error e => some (Except.error e, calls + 1, tr ++ [SFCall.query soql])
  | Except.ok r =>
    pageWhile resp fuel r r.records r.nextRecordsUrl (calls + 1)
      (tr ++ [SFCall.query soql])

/-- The `for i in range(5)` retry loop of `fetch_data`
(src/main.py:71-88): each attempt re-runs the whole `try:` block; after
the loop, `raise Exception(f"Max retries reached, query failed for
{object_name}")`. -/
def fetchRetry (resp : Nat → SFCall → Except String (QueryResult R))
    (soql objectName : String) (fuel : Nat) :
    Nat → Nat → List SFCall →
    Option (Except String (List R) × Nat × List SFCall)
  | 0, calls, tr =>
    some (Except.error ("Max retries reached, query failed for " ++ objectName),
      calls, tr)
  | n + 1, calls, tr =>
    match attemptFetch resp soql fuel calls tr with
    | none => none
    | some (Except.ok v, c, t) => some (Except.ok v, c, t)
    | some (Except.error _, c, t) => fetchRetry resp soql objectName fuel n c t

/-- `SalesforceClient.fetch_data` (src/main.py:66-88): build the SOQL
query and run the retry loop with 5 attempts, starting from zero calls
and an empty trace. -/
def fetch_data (resp : Nat → SFCall → Except String (QueryResult R))
    (objectName : String) (fields : List String) (fuel : Nat) :
    Option (Except String (List R) × Nat × List SFCall) :=
  fetchRetry resp (soqlOf objectName fields) objectName fuel 5 0 []

/-- A failure-free provider serving a fixed page sequence: the `n`-th
underlying call (whatever it is) returns the `n`-th page. -/
def pagesProvider (ps : List (QueryResult R)) :
    Nat → SFCall → Except String (QueryResult R) :=
  fun n _ =>
    if h : n < ps.length then Except.ok (ps.get ⟨n, h⟩)
    else Except.error "no more pages"

/-- A page chain is well formed when every page except the last reports
`done = false` and the last reports `done = true`. -/
def chainOk : QueryResult R → List (QueryResult R) → Bool
  | cur, [] => cur.done
  | cur, p :: ps => !cur.done && chainOk p ps

/-- Running the pagination loop over a well-formed chain of further
pages appends the concatenation of their record lists, in page order,
making one underlying call per page. -/
lemma pageWhile_chain (resp : Nat → SFCall → Except String (QueryResult R)) :
    ∀ (rest : List (QueryResult R)) (cur : QueryResult R) (acc : List R)
      (url : Option String) (calls : Nat) (tr : List SFCall) (fuel : Nat),
      chainOk cur rest = true →
      (∀ i c (h : i < rest.length), resp (calls + i) c = Except.ok (rest.get ⟨i, h⟩)) →
      rest.length ≤ fuel →
      ∃ t, pageWhile resp fuel cur acc url calls tr
        = some (Except.ok (acc ++ (rest.map QueryResult.records).flatten),
            calls + rest.length, t) := by
  intro rest
  induction rest with
  | nil =>
    intro cur acc url calls tr fuel hchain _ _
    simp only [chainOk] at hchain
    refine ⟨tr, ?_⟩
    cases fuel <;> simp [pageWhile, hchain]
  | cons q qs ih =>
    intro cur acc url calls tr fuel hchain hresp hfuel
    simp only [chainOk, Bool.and_eq_true, Bool.not_eq_true'] at hchain
    obtain ⟨hdone, hchain'⟩ := hchain
    cases fuel with
    | zero => simp at hfuel
    | succ f =>
      have h0 : resp calls (SFCall.queryMore url) = Except.ok q := by
        have h := hresp 0 (SFCall.queryMore url) (by simp)
        simpa using h
      obtain ⟨t, ht⟩ := ih q (acc ++ q.records) q.nextRecordsUrl (calls + 1)
        (tr ++ [SFCall.queryMore url]) f hchain'
        (fun i c hi => by
          have h := hresp (i + 1) c (by simpa using Nat.succ_lt_succ hi)
          rw [show calls + 1 + i = calls + (i + 1) by omega]
          simpa using h)
        (by simp at hfuel; omega)
      refine ⟨t, ?_⟩
      rw [show pageWhile resp (f + 1) cur acc url calls tr
          = pageWhile resp f q (acc ++ q.records) q.nextRecordsUrl (calls + 1)
              (tr ++ [SFCall.queryMore url]) from by
        simp [pageWhile, hdone, h0]]
      rw [ht]
      have hn : calls + 1 + qs.length = calls + (qs.length + 1) := by omega
      simp [List.append_assoc, hn]

/-- Claim C5: for every object, field list and well-formed page sequence
served by the provider, the paginated fetch returns exactly the
concatenation of all page record lists in page order (no reordering, no
deduplication, no dropped or duplicated rows), making one underlying
call per page. -/
theorem fetch_concatenates_pages (p : QueryResult R) (ps : List (QueryResult R))
    (objectName : String) (fields : List String) (fuel : Nat)
    (hchain : chainOk p ps = true) (hfuel : ps.length ≤ fuel) :
    ∃ t, fetch_data (pagesProvider (p :: ps)) objectName fields fuel
      = some (Except.ok ((p :: ps).map QueryResult.records).flatten,
          ps.length + 1, t) := by
  have hq0 : pagesProvider (p :: ps) 0 (SFCall.query (soqlOf objectName fields))
      = Except.ok p := by
    simp [pagesProvider]
  obtain ⟨t, ht⟩ := pageWhile_chain (pagesProvider (p :: ps)) ps p p.records
    p.nextRecordsUrl 1 [SFCall.query (soqlOf objectName fields)] fuel hchain
    (fun i c hi => by
      have h1 : 1 + i < (p :: ps).length := by simp; omega
      simp only [pagesProvider, dif_pos h1]
      congr 1
      have h2 : (⟨1 + i, h1⟩ : Fin (p :: ps).length)
          = ⟨i + 1, by simpa using Nat.succ_lt_succ hi⟩ := by
        apply Fin.ext
        simp [Nat.add_comm]
      rw [h2]
      simp)
    hfuel
  refine ⟨t, ?_⟩
  show fetchRetry (pagesProvider (p :: ps)) (soqlOf objectName fields)
    objectName fuel 5 0 [] = _
  rw [show (5 : Nat) = 4 + 1 from rfl]
  simp only [fetchRetry, attemptFetch, hq0]
  rw [show (0 : Nat) + 1 = 1 from rfl, List.nil_append, ht]
  have hn : 1 + ps.length = ps.length + 1 := by omega
  simp [hn]

/-- First page of the 2,2,1 page sequence. -/
def page1 : QueryResult Nat := ⟨[1, 2], false, some "p2"⟩

/-- Second page of the 2,2,1 page sequence. -/
def page2 : QueryResult Nat := ⟨[3, 4], false, some "p3"⟩

/-- Third page of the 2,2,1 page sequence. -/
def page3 : QueryResult Nat := ⟨[5], true, none⟩

/-- Witness for C5: for the 3-page sequence of sizes 2, 2, 1 the fetch
returns the 5-element concatenation in page order. -/
theorem fetch_concatenates_pages_witness :
    ∃ t, fetch_data (pagesProvider [page1, page2, page3]) "Account" ["Id"] 5
      = some (Except.ok [1, 2, 3, 4, 5], 3, t) := by
  have h := fetch_concatenates_pages page1 [page2, page3] "Account" ["Id"] 5
    (by decide) (by decide)
  simpa [page1, page2, page3] using h

/-- Every trace extension produced by the pagination loop consists of
`queryMore` calls only. -/
lemma pageWhile_trace (resp : Nat → SFCall → Except String (QueryResult R)) :
    ∀ (fuel : Nat) (cur : QueryResult R) (acc : List R) (url : Option String)
      (calls : Nat) (tr : List SFCall) res c t,
      pageWhile resp fuel cur acc url calls tr = some (res, c, t) →
      ∃ ext, t = tr ++ ext ∧ ∀ e ∈ ext, ∃ u, e = SFCall.queryMore u := by
  intro fuel
  induction fuel with
  | zero =>
    intro cur acc url calls tr res c t h
    by_cases hd : cur.done
    · simp [pageWhile, hd] at h
      exact ⟨[], by simp [h.2.2], by simp⟩
    · simp [pageWhile, hd] at h
  | succ f ih =>
    intro cur acc url calls tr res c t h
    by_cases hd : cur.done
    · simp [pageWhile, hd] at h
      exact ⟨[], by simp [h.2.2], by simp⟩
    · rw [show pageWhile resp (f + 1) cur acc url calls tr
          = match resp calls (SFCall.queryMore url) with
            | Except.error e =>
              some (Except.error e, calls + 1, tr ++ [SFCall.queryMore url])
            | Except.ok r =>
              pageWhile resp f r (acc ++ r.records) r.nextRecordsUrl (calls + 1)
                (tr ++ [SFCall.queryMore url]) from by
        simp [pageWhile, hd]] at h
      cases hr : resp calls (SFCall.queryMore url) with
      | error e =>
        rw [hr] at h
        simp at h
        refine ⟨[SFCall.queryMore url], by simp [h.2.2], ?_⟩
        intro e' he'
        simp at he'
        exact ⟨url, he'⟩
      | ok r =>
        rw [hr] at h
        obtain ⟨ext, hext, hprop⟩ := ih r (acc ++ r.records) r.nextRecordsUrl
          (calls + 1) (tr ++ [SFCall.queryMore url]) res c t h
        refine ⟨SFCall.queryMore url :: ext, ?_, ?_⟩
        · rw [hext]; simp
        · intro e' he'
          rcases List.mem_cons.mp he' with h1 | h1
          · exact ⟨url, h1⟩
          · exact hprop e' h1

/-- Every attempt of the fetch extends the trace with the initial query
followed by `queryMore` calls only. -/
lemma attemptFetch_trace (resp : Nat → SFCall → Except String (QueryResult R))
    (soql : String) (fuel calls : Nat) (tr : List SFCall) (res c t)
    (h : attemptFetch resp soql fuel calls tr = some (res, c, t)) :
    ∃ ext, t = tr ++ (SFCall.query soql :: ext) ∧
      ∀ e ∈ ext, ∃ u, e = SFCall.queryMore u := by
  unfold attemptFetch at h
  cases hr : resp calls (SFCall.query soql) with
  | error e =>
    rw [hr] at h
    simp at h
    exact ⟨[], by simp [h.2.2], by simp⟩
  | ok r =>
    rw [hr] at h
    obtain ⟨ext, hext, hprop⟩ := pageWhile_trace resp fuel r r.records
      r.nextRecordsUrl (calls + 1) (tr ++ [SFCall.query soql]) res c t h
    refine ⟨ext, ?_, hprop⟩
    rw [hext]; simp

/-- The trace of a retried fetch splits into at most `n` attempt
segments, each opening with the initial query. -/
lemma fetchRetry_parts (resp : Nat → SFCall → Except String (QueryResult R))
    (soql objectName : String) (fuel : Nat) :
    ∀ (n calls : Nat) (tr : List SFCall) res c t,
      fetchRetry resp soql objectName fuel n calls tr = some (res, c, t) →
      ∃ parts : List (List SFCall),
        t = tr ++ parts.flatten ∧ parts.length ≤ n ∧
        ∀ p ∈ parts, ∃ ext, p = SFCall.query soql :: ext ∧
          ∀ e ∈ ext, ∃ u, e = SFCall.queryMore u := by
  intro n
  induction n with
  | zero =>
    intro calls tr res c t h
    simp [fetchRetry] at h
    exact ⟨[], by simp [h.2.2], by simp, by simp⟩
  | succ m ih =>
    intro calls tr res c t h
    rw [show fetchRetry resp soql objectName fuel (m + 1) calls tr
        = match attemptFetch resp soql fuel calls tr with
          | none => none
          | some (Except.ok v, c', t') => some (Except.ok v, c', t')
          | some (Except.error _, c', t') =>
            fetchRetry resp soql objectName fuel m c' t' from rfl] at h
    cases ha : attemptFetch resp soql fuel calls tr with
    | none => rw [ha] at h; simp at h
    | some x =>
      obtain ⟨res', c', t'⟩ := x
      cases res' with
      | ok v =>
        rw [ha] at h
        simp at h
        obtain ⟨ext, hext, hprop⟩ := attemptFetch_trace resp soql fuel calls tr
          (Except.ok v) c' t' ha
        refine ⟨[SFCall.query soql :: ext], ?_, by simp, ?_⟩
        · rw [← h.2.2, hext]; simp
        · intro p hp
          simp at hp
          exact ⟨ext, hp, hprop⟩
      | error e =>
        rw [ha] at h
        obtain ⟨parts', hj, hlen, hprop'⟩ := ih c' t' res c t h
        obtain ⟨ext, hext, hprop⟩ := attemptFetch_trace resp soql fuel calls tr
          (Except.error e) c' t' ha
        refine ⟨(SFCall.query soql :: ext) :: parts', ?_, by simp; omega, ?_⟩
        · rw [hj, hext]; simp
        · intro p hp
          rcases List.mem_cons.mp hp with h1 | h1
          · exact ⟨ext, h1, hprop⟩
          · exact hprop' p h1

/-- Claim C2 (amended): the retry in the paginated fetch wraps the whole
pagination sequence, not each page call: the underlying call trace of
any fetch splits into at most 5 attempt segments sharing the single
5-attempt budget, and every attempt segment re-issues the initial query
before any `queryMore`; a failure while fetching a later page therefore
restarts the fetch from the initial query. -/
theorem fetch_retry_restarts_from_initial_query
    (resp : Nat → SFCall → Except String (QueryResult R))
    (objectName : String) (fields : List String) (fuel : Nat)
    (res : Except String (List R)) (calls : Nat) (trace : List SFCall)
    (h : fetch_data resp objectName fields fuel = some (res, calls, trace)) :
    ∃ parts : List (List SFCall),
      trace = parts.flatten ∧ parts.length ≤ 5 ∧
      ∀ p ∈ parts, ∃ ext, p = SFCall.query (soqlOf objectName fields) :: ext ∧
        ∀ e ∈ ext, ∃ u, e = SFCall.queryMore u := by
  obtain ⟨parts, h1, h2, h3⟩ := fetchRetry_parts resp (soqlOf objectName fields)
    objectName fuel 5 0 [] res calls trace h
  exact ⟨parts, by simpa using h1, h2, h3⟩

/-- Provider on which the initial query succeeds, the first `queryMore`
(page 2) fails once, and the re-issued initial query then succeeds with
a different final page. -/
def c2Resp : Nat → SFCall → Except String (QueryResult Nat) :=
  fun n _ =>
    match n with
    | 0 => Except.ok ⟨[1, 2], false, some "u1"⟩
    | 1 => Except.error "network error while fetching page 2"
    | 2 => Except.ok ⟨[7, 8, 9], true, none⟩
    | _ => Except.error "unexpected call"

/-- Counterexample for C2 as stated: on `c2Resp` the only failure is the
page-2 `queryMore` call, yet the fetch re-issues the initial query (it
appears twice in the trace) and discards the first attempt's rows,
instead of retrying only that page's call. -/
theorem fetch_per_page_retry_counterexample :
    fetch_data c2Resp "Account" ["Id"] 5
      = some (Except.ok [7, 8, 9], 3,
          [SFCall.query (soqlOf "Account" ["Id"]),
           SFCall.queryMore (some "u1"),
           SFCall.query (soqlOf "Account" ["Id"])]) ∧
    List.count (SFCall.query (soqlOf "Account" ["Id"]))
      [SFCall.query (soqlOf "Account" ["Id"]), SFCall.queryMore (some "u1"),
       SFCall.query (soqlOf "Account" ["Id"])] = 2 := by
  exact ⟨rfl, by decide⟩

/-- Witness for the amended C2 theorem at the concrete provider
`c2Resp`. -/
theorem fetch_retry_restarts_witness :
    ∃ parts : List (List SFCall),
      [SFCall.query (soqlOf "Account" ["Id"]), SFCall.queryMore (some "u1"),
       SFCall.query (soqlOf "Account" ["Id"])] = parts.flatten ∧
      parts.length ≤ 5 ∧
      ∀ p ∈ parts, ∃ ext, p = SFCall.query (soqlOf "Account" ["Id"]) :: ext ∧
        ∀ e ∈ ext, ∃ u, e = SFCall.queryMore u := by
  exact fetch_retry_restarts_from_initial_query c2Resp "Account" ["Id"] 5
    (Except.ok [7, 8, 9]) 3
    [SFCall.query (soqlOf "Account" ["Id"]), SFCall.queryMore (some "u1"),
     SFCall.query (soqlOf "Account" ["Id"])] rfl

/-! ## Field resolution (src/main.py lines 53-64
`SalesforceClient.get_field_labels`, src/config.py lines 25-36
`Config.STANDARD_FIELDS`).

Python dictionaries are modelled as association lists with Python's
insert/overwrite semantics (`dictInsert`); `'__c' in name` is substring
containment (`strContains`). -/

/-- Whether the pattern occurs at the head of the character list. -/
def leadMatch : List Char → List Char → Bool
  | [], _ => true
  | _ :: _, [] => false
  | p :: ps, c :: cs => p == c && leadMatch ps cs

/-- Whether the pattern occurs anywhere in the character list. -/
def occursIn (pat : List Char) : List Char → Bool
  | [] => leadMatch pat []
  | c :: cs => leadMatch pat (c :: cs) || occursIn pat cs

/-- Python's `pat in s` substring test. -/
def strContains (s pat : String) : Bool :=
  occursIn pat.data s.data

/-- `Config.STANDARD_FIELDS` (src/config.py:25-36), verbatim. -/
def STANDARD_FIELDS : List String := [
  "Id", "Name", "OwnerId", "CreatedDate", "LastModifiedDate", "CreatedById",
  "DeveloperName", "IsActive", "SobjectType",
  "BillingStreet", "BillingCity", "BillingPostalCode", "BillingCountry",
  "ShippingStreet", "ShippingCity", "ShippingPostalCode", "ShippingCountry",
  "Phone", "Email", "Salutation", "AccountId", "Title", "ContractId", "OrderId",
  "EndDate", "EffectiveDate", "ListPrice", "OrderItemNumber", "Product2Id",
  "Quantity", "ServiceDate", "UnitPrice", "TotalPrice", "Status", "StageName",
  "ContractName", "OpportunityId", "OrderNumber", "Type",
  "Pricebook2Id", "RecordTypeId", "StartDate", "ContractTerm", "ExternalId",
  "ProductCode", "Family", "IsStandard", "UseStandardPrice"]

/-- Python `d[k] = v` on an insertion-ordered dictionary rendered as an
association list: overwrite in place if the key exists, else append. -/
def dictInsert (d : List (String × String)) (k v : String) :
    List (String × String) :=
  if d.any (fun p => p.1 == k) then
    d.map (fun p => if p.1 == k then (p.1, v) else p)
  else d ++ [(k, v)]

/-- Python `d.get(k, dflt)`. -/
def dictGet (d : List (String × String)) (k dflt : String) : String :=
  match d.find? (fun p => p.1 == k) with
  | some p => p.2
  | none => dflt

/-- `SalesforceClient.get_field_labels` (src/main.py:53-64) applied to
the field metadata rows `(QualifiedApiName, Label)` returned by the
FieldDefinition query (the queried `ValueTypeId` is never used): keep a
field when its qualified name is in `Config.STANDARD_FIELDS` or contains
`"__c"`, mapping the name to its label. -/
def get_field_labels (meta : List (String × String)) :
    List (String × String) :=
  meta.foldl
    (fun d f =>
      if STANDARD_FIELDS.contains f.1 || strContains f.1 "__c" then
        dictInsert d f.1 f.2
      else d)
    []

/-! ## Per-object export and pipeline
(src/main.py lines 20-26 `Statistics`, 174-219
`DataPipeline.export_salesforce_object`, 221-243
`DataPipeline.save_statistics`, 245-261 `DataPipeline.run`).

The two remote calls made by `export_salesforce_object`
(`get_field_labels`'s metadata query and `fetch_data`) are modelled as
an environment `SFEnv`; their internal logic is verified separately
above.  `datetime.now()` / `datetime.today()` are modelled by an
abstract per-object clock in the environment.  The `async` coroutines
contain no `await`, so `asyncio.gather` runs them to completion one
after another in list order; the pipeline is accordingly a fold.  Excel
sheet writes and csv writes are recorded in the pipeline state. -/

/-- The `Statistics` dataclass (src/main.py:20-26). -/
structure Statistics where
  object_name : String
  start_time : Nat
  end_time : Nat
  duration : Nat
  last_refresh_date : String
deriving Repr, DecidableEq

/-- Environment seen by one pipeline run: the remote metadata query
behind `get_field_labels`, the record fetch behind `fetch_data` (an
`Except.error` models an exception, e.g. retry exhaustion), the
per-object wall clock, and today's date string. -/
structure SFEnv where
  fieldMeta : String → Except String (List (String × String))
  fetchRecs : String → List String → Except String (List (List (String × String)))
  clock : String → Nat × Nat
  today : String

/-- Mutable pipeline state: accumulated statistics
(`self.sf_client.statistics`), the sheets written to the shared
workbook, the standalone csv files written, and the logged per-object
errors. -/
structure PipelineState where
  statistics : List Statistics
  sheets : List (String × List (List (String × String)))
  csvFiles : List (String × List (List (String × String)))
  errors : List String
deriving Repr, DecidableEq

/-- The empty initial pipeline state. -/
def initState : PipelineState := ⟨[], [], [], []⟩

/-- The fallible part of `export_salesforce_object`
(src/main.py:181-183): resolve the field-label map, then fetch the
records with the resolved field list. -/
def exportAttempt (env : SFEnv) (objectName : String) :
    Except String (List (String × String) × List (List (String × String))) := do
  let meta ← env.fieldMeta objectName
  let flm := get_field_labels meta
  let records ← env.fetchRecs objectName (flm.map Prod.fst)
  pure (flm, records)

/-- `{v: k for k, v in field_label_map.items()}` (src/main.py:187). -/
def invertMap (flm : List (String × String)) : List (String × String) :=
  flm.foldl (fun d p => dictInsert d p.2 p.1) []

/-- One output row (src/main.py:189-190): for each
`(field_label, field_api)` of the inverted map, `field_label ↦
record.get(field_api, '')`. -/
def rowOf (fm : List (String × String)) (rec : List (String × String)) :
    List (String × String) :=
  fm.map (fun p => (p.1, dictGet rec p.2 ""))

/-- The DataFrame built at src/main.py:188-192: one row per fetched
record. -/
def buildRows (flm : List (String × String))
    (records : List (List (String × String))) :
    List (List (String × String)) :=
  records.map (rowOf (invertMap flm))

/-- Python `s.replace(old, new)` on character lists: replace every
non-overlapping occurrence of `old`, scanning left to right.  The fuel
argument (instantiated with the list length, which bounds the number of
steps) only makes the recursion structural. -/
def replaceCharsAux (old new : List Char) : Nat → List Char → List Char
  | 0, l => l
  | _ + 1, [] => []
  | fuel + 1, c :: cs =>
    if leadMatch old (c :: cs) then
      new ++ replaceCharsAux old new fuel (List.drop (old.length - 1) cs)
    else c :: replaceCharsAux old new fuel cs

/-- Python `s.replace(old, new)` (for the nonempty patterns used in the
source). -/
def strReplace (s old new : String) : String :=
  ⟨replaceCharsAux old.data new.data s.data.length s.data⟩

/-- The sheet name computed at src/main.py:198:
`object_name.replace("__c", "").replace("_", " ")`. -/
def sheet_name (objectName : String) : String :=
  strReplace (strReplace objectName "__c" "") "_" " "

/-- `DataPipeline.export_salesforce_object` (src/main.py:174-219): on
success, materialize the rows (a csv file when `len(records) >=
1_000_000`, else a workbook sheet, and nothing at all when `records` is
empty) and append a `Statistics` record; on any exception, only log the
error. -/
def export_salesforce_object (env : SFEnv) (objectName : String)
    (st : PipelineState) : PipelineState :=
  match exportAttempt env objectName with
  | Except.error e =>
    { st with errors := st.errors ++ ["Error processing " ++ objectName ++ ": " ++ e] }
  | Except.ok (flm, records) =>
    let st1 :=
      if records.isEmpty then st
      else
        let rows := buildRows flm records
        if 1000000 ≤ records.length then
          { st with csvFiles := st.csvFiles ++ [(objectName ++ ".csv", rows)] }
        else
          { st with sheets := st.sheets ++ [(sheet_name objectName, rows)] }
    { st1 with
      statistics := st1.statistics ++
        [⟨objectName, (env.clock objectName).1, (env.clock objectName).2,
          (env.clock objectName).2 - (env.clock objectName).1, env.today⟩] }

/-- `DataPipeline.save_statistics` (src/main.py:221-243): read the
existing statistics file when present (`none` = no file), append the
run's records after it, and rewrite the whole file. -/
def save_statistics (stats : List Statistics)
    (file : Option (List Statistics)) : Option (List Statistics) :=
  match file with
  | some existing => some (existing ++ stats)
  | none => some stats

/-- The body of the `async with` block of `DataPipeline.run`
(src/main.py:255-258), the export fan-out that `asyncio.gather` would
execute: the coroutines have no suspension point, so they would run
sequentially in configured order.  In the program this body is never
entered, because entering the `async with` itself raises (see
`excelWriterAsyncEnter`); it is modelled separately because the
per-object claims are about `export_salesforce_object` and this is the
only place it is called. -/
def runExports (env : SFEnv) (objs : List String) (st : PipelineState) :
    PipelineState :=
  objs.foldl (fun s o => export_salesforce_object env o s) st

/-- Entering `async with pd.ExcelWriter(excel_path) as writer`
(src/main.py:254): `pd.ExcelWriter` implements only the synchronous
context-manager protocol (`__enter__`/`__exit__`), so `async with`
raises `TypeError` before the body is entered (PEP 492).  The exact
message text varies with the interpreter and engine; only the fact that
an exception is raised matters below. -/
def excelWriterAsyncEnter : Except String Unit :=
  Except.error "object does not support the asynchronous context manager protocol"

/-- The export and statistics phases of `DataPipeline.run`
(src/main.py:245-278) after a successful login, including the top-level
`except` at line 276: entering the `async with pd.ExcelWriter` block
raises `TypeError`, so neither the per-object exports (the body
`runExports` would have run) nor `save_statistics` is ever executed; the
exception is only printed (`"Pipeline failed: ..."`) and the statistics
file is left untouched. -/
def runPipeline (env : SFEnv) (objs : List String)
    (file : Option (List Statistics)) :
    PipelineState × Option (List Statistics) :=
  match excelWriterAsyncEnter with
  | Except.error e =>
    ({ initState with errors := ["Pipeline failed: " ++ e] }, file)
  | Except.ok _ =>
    let st := runExports env objs initState
    (st, save_statistics st.statistics file)

/-- Whether the fallible part of an object's export succeeds. -/
def exportOk (env : SFEnv) (objectName : String) : Bool :=
  match exportAttempt env objectName with
  | Except.ok _ => true
  | Except.error _ => false

/-- The records an object's export fetches (empty on failure). -/
def recordsOf (env : SFEnv) (objectName : String) :
    List (List (String × String)) :=
  match exportAttempt env objectName with
  | Except.ok (_, r) => r
  | Except.error _ => []

/-- The output rows an object's export builds (empty on failure). -/
def rowsOf (env : SFEnv) (objectName : String) :
    List (List (String × String)) :=
  match exportAttempt env objectName with
  | Except.ok (flm, r) => buildRows flm r
  | Except.error _ => []

/-- The error message logged for a failing object. -/
def errMsgOf (env : SFEnv) (objectName : String) : String :=
  match exportAttempt env objectName with
  | Except.error e => "Error processing " ++ objectName ++ ": " ++ e
  | Except.ok _ => ""

/-- The `Statistics` record appended for a successful object. -/
def statOf (env : SFEnv) (objectName : String) : Statistics :=
  ⟨objectName, (env.clock objectName).1, (env.clock objectName).2,
    (env.clock objectName).2 - (env.clock objectName).1, env.today⟩

/-- Inserting a fresh key into a dictionary appends it. -/
lemma dictInsert_fresh (d : List (String × String)) (k v : String)
    (h : ∀ p ∈ d, p.1 ≠ k) : dictInsert d k v = d ++ [(k, v)] := by
  have hany : (d.any (fun p => p.1 == k)) = false := by
    by_contra hc
    rw [Bool.not_eq_false, List.any_eq_true] at hc
    obtain ⟨p, hp, hpk⟩ := hc
    exact h p hp (by simpa using hpk)
  simp [dictInsert, hany]

/-- With pairwise-distinct qualified names, the field-label fold is the
filter by the retention condition. -/
lemma get_field_labels_fold (ms : List (String × String)) :
    ∀ (acc : List (String × String)),
      (ms.map Prod.fst).Nodup →
      (∀ p ∈ acc, ∀ q ∈ ms, p.1 ≠ q.1) →
      ms.foldl
        (fun d f =>
          if STANDARD_FIELDS.contains f.1 || strContains f.1 "__c" then
            dictInsert d f.1 f.2
          else d)
        acc
      = acc ++ ms.filter
          (fun f => STANDARD_FIELDS.contains f.1 || strContains f.1 "__c") := by
  induction ms with
  | nil => intro acc _ _; simp
  | cons f fs ih =>
    intro acc hnodup hfresh
    simp only [List.map_cons, List.nodup_cons] at hnodup
    obtain ⟨hf, hnodup'⟩ := hnodup
    have hfreshf : ∀ p ∈ acc, p.1 ≠ f.1 :=
      fun p hp => hfresh p hp f (List.mem_cons_self f fs)
    have hfresh' : ∀ p ∈ acc ++ [f], ∀ q ∈ fs, p.1 ≠ q.1 := by
      intro p hp q hq
      rcases List.mem_append.mp hp with h1 | h1
      · exact hfresh p h1 q (List.mem_cons_of_mem f hq)
      · have hp1 : p = f := by simpa using h1
        rw [hp1]
        intro hcontra
        exact hf (by rw [hcontra]; exact List.mem_map_of_mem Prod.fst hq)
    cases hc : (STANDARD_FIELDS.contains f.1 || strContains f.1 "__c") with
    | true =>
      simp only [List.foldl_cons, List.filter_cons, hc, if_true]
      rw [show dictInsert acc f.1 f.2 = acc ++ [f] from
        dictInsert_fresh acc f.1 f.2 hfreshf]
      rw [ih (acc ++ [f]) hnodup' hfresh']
      simp
    | false =>
      simp only [List.foldl_cons, List.filter_cons, hc, if_false]
      rw [show (if false = true then dictInsert acc f.1 f.2 else acc) = acc from rfl]
      exact ih acc hnodup'
        (fun p hp q hq => hfresh p hp q (List.mem_cons_of_mem f hq))

/-- Claim C6: with pairwise-distinct qualified names, field resolution
retains a field if and only if it occurs in the metadata and is in
`Config.STANDARD_FIELDS` or contains the custom-field marker `"__c"`;
every other field is dropped, and each retained qualified name is mapped
to its label. -/
theorem field_filter_allowlist_or_custom (meta : List (String × String))
    (hnodup : (meta.map Prod.fst).Nodup) :
    get_field_labels meta
      = meta.filter (fun f => STANDARD_FIELDS.contains f.1 || strContains f.1 "__c") ∧
    (∀ q, (∃ l, (q, l) ∈ get_field_labels meta) ↔
      ((∃ l, (q, l) ∈ meta) ∧
        (q ∈ STANDARD_FIELDS ∨ strContains q "__c" = true))) ∧
    (∀ q l, (q, l) ∈ meta →
      (STANDARD_FIELDS.contains q || strContains q "__c") = true →
      (q, l) ∈ get_field_labels meta) := by
  have hfold : get_field_labels meta
      = meta.filter (fun f => STANDARD_FIELDS.contains f.1 || strContains f.1 "__c") := by
    have h := get_field_labels_fold meta [] hnodup (by simp)
    simpa [get_field_labels] using h
  refine ⟨hfold, ?_, ?_⟩
  · intro q
    constructor
    · rintro ⟨l, hl⟩
      rw [hfold] at hl
      rw [List.mem_filter] at hl
      refine ⟨⟨l, hl.1⟩, ?_⟩
      have := hl.2
      simp only [Bool.or_eq_true] at this
      rcases this with h1 | h1
      · exact Or.inl (by simpa using h1)
      · exact Or.inr h1
    · rintro ⟨⟨l, hl⟩, hcond⟩
      refine ⟨l, ?_⟩
      rw [hfold, List.mem_filter]
      refine ⟨hl, ?_⟩
      simp only [Bool.or_eq_true]
      rcases hcond with h1 | h1
      · exact Or.inl (by simpa using h1)
      · exact Or.inr h1
  · intro q l hmem hcond
    rw [hfold, List.mem_filter]
    exact ⟨hmem, hcond⟩

/-- Witness for C6: on `["Id", "Foo__c", "RandomField"]` (with `"Id"` in
the allowlist) the resolved map keeps exactly `"Id"` and `"Foo__c"` and
drops `"RandomField"`. -/
theorem field_filter_witness :
    ((([("Id", "Identifier"), ("Foo__c", "Foo"), ("RandomField", "Random")]
        : List (String × String)).map Prod.fst).Nodup) ∧
    get_field_labels
        [("Id", "Identifier"), ("Foo__c", "Foo"), ("RandomField", "Random")]
      = [("Id", "Identifier"), ("Foo__c", "Foo")] := by
  refine ⟨by decide, ?_⟩
  have h := (field_filter_allowlist_or_custom
    [("Id", "Identifier"), ("Foo__c", "Foo"), ("RandomField", "Random")]
    (by decide)).1
  rw [h]
  rfl

/-- With pairwise-distinct labels, inverting the field-label map swaps
every pair, preserving order. -/
lemma invertMap_fold (flm : List (String × String)) :
    ∀ (acc : List (String × String)),
      (flm.map Prod.snd).Nodup →
      (∀ p ∈ acc, ∀ q ∈ flm, p.1 ≠ q.2) →
      flm.foldl (fun d p => dictInsert d p.2 p.1) acc
        = acc ++ flm.map (fun p => (p.2, p.1)) := by
  induction flm with
  | nil => intro acc _ _; simp
  | cons f fs ih =>
    intro acc hnodup hfresh
    simp only [List.map_cons, List.nodup_cons] at hnodup
    obtain ⟨hf, hnodup'⟩ := hnodup
    rw [List.foldl_cons]
    rw [dictInsert_fresh acc f.2 f.1
      (fun p hp => hfresh p hp f (List.mem_cons_self f fs))]
    rw [ih (acc ++ [(f.2, f.1)]) hnodup' ?_]
    · simp
    · intro p hp q hq
      rcases List.mem_append.mp hp with h1 | h1
      · exact hfresh p h1 q (List.mem_cons_of_mem f hq)
      · have hp1 : p.1 = f.2 := by
          simp at h1
          rw [h1]
        rw [hp1]
        intro hcontra
        exact hf (by rw [hcontra]; exact List.mem_map_of_mem Prod.snd hq)

/-- Claim C7: when field labels are pairwise distinct, the row transform
yields exactly one row per fetched record (count preserved, nothing
dropped or duplicated), each row pairing every resolved field's label
with the record's value looked up by that field's API identifier,
defaulting to the empty string. -/
theorem row_transform_one_row_per_record (flm : List (String × String))
    (records : List (List (String × String)))
    (hnodup : (flm.map Prod.snd).Nodup) :
    (buildRows flm records).length = records.length ∧
    buildRows flm records
      = records.map (fun rec => flm.map (fun p => (p.2, dictGet rec p.1 ""))) := by
  have hinv : invertMap flm = flm.map (fun p => (p.2, p.1)) := by
    have h := invertMap_fold flm [] hnodup (by simp)
    simpa [invertMap] using h
  refine ⟨by simp [buildRows], ?_⟩
  unfold buildRows rowOf
  rw [hinv]
  simp [List.map_map, Function.comp]

/-- Witness for C7: two records over fields Id and Foo__c produce two
rows keyed by labels, the missing Foo__c value defaulting to "". -/
theorem row_transform_witness :
    ((([("Id", "Identifier"), ("Foo__c", "Foo")] : List (String × String)).map
        Prod.snd).Nodup) ∧
    (buildRows [("Id", "Identifier"), ("Foo__c", "Foo")]
        [[("Id", "1"), ("Foo__c", "x")], [("Id", "2")]]).length = 2 ∧
    buildRows [("Id", "Identifier"), ("Foo__c", "Foo")]
        [[("Id", "1"), ("Foo__c", "x")], [("Id", "2")]]
      = [[("Identifier", "1"), ("Foo", "x")], [("Identifier", "2"), ("Foo", "")]] := by
  have h := row_transform_one_row_per_record
    [("Id", "Identifier"), ("Foo__c", "Foo")]
    [[("Id", "1"), ("Foo__c", "x")], [("Id", "2")]] (by decide)
  exact ⟨by decide, by rw [h.1]; rfl, by rw [h.2]; rfl⟩

/-- Environment on which every object's metadata query and fetch
succeed and the fetch returns no records. -/
def envEmpty : SFEnv :=
  ⟨fun _ => Except.ok [("Id", "Identifier")],
   fun _ _ => Except.ok [],
   fun _ => (0, 1), "2020-01-01"⟩

/-- Environment on which every object's export succeeds with a single
record for field Id. -/
def envSmall : SFEnv :=
  ⟨fun _ => Except.ok [("Id", "Identifier")],
   fun _ _ => Except.ok [[("Id", "1")]],
   fun _ => (0, 1), "2020-01-01"⟩

/-- Claim C8 (amended): a completed export with at least one record is
materialized exactly once — below 1,000,000 records as one workbook
sheet named by removing the occurrences of the custom-object marker
`"__c"` from the object name and replacing underscores with spaces, and
at or above 1,000,000 records as one standalone file `<objectName>.csv`;
a completed export with zero records writes neither. -/
theorem materialization_threshold (env : SFEnv) (objectName : String)
    (st : PipelineState) (flm : List (String × String))
    (records : List (List (String × String)))
    (hok : exportAttempt env objectName = Except.ok (flm, records)) :
    (records = [] →
      (export_salesforce_object env objectName st).sheets = st.sheets ∧
      (export_salesforce_object env objectName st).csvFiles = st.csvFiles) ∧
    (records ≠ [] → records.length < 1000000 →
      (export_salesforce_object env objectName st).sheets
        = st.sheets ++ [(sheet_name objectName, buildRows flm records)] ∧
      (export_salesforce_object env objectName st).csvFiles = st.csvFiles) ∧
    (records ≠ [] → 1000000 ≤ records.length →
      (export_salesforce_object env objectName st).csvFiles
        = st.csvFiles ++ [(objectName ++ ".csv", buildRows flm records)] ∧
      (export_salesforce_object env objectName st).sheets = st.sheets) := by
  unfold export_salesforce_object
  rw [hok]
  refine ⟨?_, ?_, ?_⟩
  · intro h1
    simp [h1]
  · intro h1 h2
    have hne : records.isEmpty = false := by
      simpa [List.isEmpty_iff] using h1
    have hlt : ¬(1000000 ≤ records.length) := Nat.not_le.mpr h2
    simp [hne, hlt]
  · intro h1 h2
    have hne : records.isEmpty = false := by
      simpa [List.isEmpty_iff] using h1
    simp [hne, h2]

/-- Counterexample for C8 as stated: on `envEmpty` the object "Account"
completes its export with zero records (below the threshold), yet no
workbook sheet and no standalone file is written. -/
theorem materialize_empty_counterexample :
    exportOk envEmpty "Account" = true ∧
    (recordsOf envEmpty "Account").length < 1000000 ∧
    (export_salesforce_object envEmpty "Account" initState).sheets = [] ∧
    (export_salesforce_object envEmpty "Account" initState).csvFiles = [] := by
  exact ⟨rfl, by decide, rfl, rfl⟩

/-- Witness for the amended C8 theorem: one record for `Work_Order__c`
is written as the single sheet "Work Order". -/
theorem materialization_threshold_witness :
    (export_salesforce_object envSmall "Work_Order__c" initState).sheets
      = [("Work Order", [[("Identifier", "1")]])] ∧
    (export_salesforce_object envSmall "Work_Order__c" initState).csvFiles = [] := by
  have h := (materialization_threshold envSmall "Work_Order__c" initState
    [("Id", "Identifier")] [[("Id", "1")]] rfl).2.1 (by decide) (by decide)
  exact ⟨h.1.trans rfl, h.2⟩

/-- Claim C10: an object whose fetch succeeds with zero records writes
no workbook sheet and no standalone file, yet still appends its
`Statistics` record. -/
theorem empty_fetch_no_output_still_counted (env : SFEnv) (objectName : String)
    (st : PipelineState) (flm : List (String × String))
    (hok : exportAttempt env objectName = Except.ok (flm, [])) :
    (export_salesforce_object env objectName st).sheets = st.sheets ∧
    (export_salesforce_object env objectName st).csvFiles = st.csvFiles ∧
    (export_salesforce_object env objectName st).statistics
      = st.statistics ++ [statOf env objectName] := by
  unfold export_salesforce_object statOf
  rw [hok]
  simp

/-- Witness for C10 on `envEmpty`: no output artifacts, one statistics
record. -/
theorem empty_fetch_witness :
    (export_salesforce_object envEmpty "Account" initState).sheets = [] ∧
    (export_salesforce_object envEmpty "Account" initState).csvFiles = [] ∧
    (export_salesforce_object envEmpty "Account" initState).statistics
      = [⟨"Account", 0, 1, 1, "2020-01-01"⟩] := by
  have h := empty_fetch_no_output_still_counted envEmpty "Account" initState
    [("Id", "Identifier")] rfl
  exact ⟨h.1, h.2.1, h.2.2.trans rfl⟩

/-- Claim C9: statistics persistence is append-via-rewrite and never
loses prior records: flushing onto an existing file rewrites it as the
old records followed by the new ones, and two successive runs flushed
against the same file yield the first run's records followed by the
second run's, never overwritten and never deduplicated. -/
theorem statistics_append_via_rewrite (firstRun secondRun : List Statistics) :
    (∀ existing, save_statistics secondRun (some existing)
      = some (existing ++ secondRun)) ∧
    save_statistics secondRun (save_statistics firstRun none)
      = some (firstRun ++ secondRun) := by
  exact ⟨fun existing => rfl, rfl⟩

/-- Effect of one per-object export step on each pipeline-state
component. -/
lemma export_step_effect (env : SFEnv) (o : String) (st : PipelineState) :
    (export_salesforce_object env o st).statistics
      = st.statistics ++ (if exportOk env o then [statOf env o] else []) ∧
    (export_salesforce_object env o st).sheets
      = st.sheets ++ (if exportOk env o && !(recordsOf env o).isEmpty
          && decide ((recordsOf env o).length < 1000000)
        then [(sheet_name o, rowsOf env o)] else []) ∧
    (export_salesforce_object env o st).csvFiles
      = st.csvFiles ++ (if exportOk env o && !(recordsOf env o).isEmpty
          && decide (1000000 ≤ (recordsOf env o).length)
        then [(o ++ ".csv", rowsOf env o)] else []) ∧
    (export_salesforce_object env o st).errors
      = st.errors ++ (if exportOk env o then [] else [errMsgOf env o]) := by
  cases hA : exportAttempt env o with
  | error e =>
    simp [export_salesforce_object, exportOk, recordsOf, rowsOf, errMsgOf, hA]
  | ok x =>
    obtain ⟨flm, records⟩ := x
    have hOk : exportOk env o = true := by simp [exportOk, hA]
    have hRec : recordsOf env o = records := by simp [recordsOf, hA]
    have hRows : rowsOf env o = buildRows flm records := by simp [rowsOf, hA]
    by_cases hEmp : records.isEmpty
    · simp [export_salesforce_object, hA, hOk, hRec, hRows, hEmp, statOf]
    · have hEmp' : records.isEmpty = false := by simpa using hEmp
      by_cases hBig : 1000000 ≤ records.length
      · have hNotLt : ¬(records.length < 1000000) := Nat.not_lt.mpr hBig
        simp [export_salesforce_object, hA, hOk, hRec, hRows, hEmp', hBig,
          hNotLt, statOf]
      · have hLt : records.length < 1000000 := Nat.not_le.mp hBig
        simp [export_salesforce_object, hA, hOk, hRec, hRows, hEmp', hBig,
          hLt, statOf]

/-- The sequential export fan-out appends, for each state component, one
entry per object selected by the corresponding condition, in configured
order. -/
lemma runExports_effect (env : SFEnv) :
    ∀ (objs : List String) (st : PipelineState),
      (runExports env objs st).statistics
        = st.statistics
          ++ (objs.filter (fun o => exportOk env o)).map (statOf env) ∧
      (runExports env objs st).sheets
        = st.sheets
          ++ (objs.filter (fun o => exportOk env o
                && !(recordsOf env o).isEmpty
                && decide ((recordsOf env o).length < 1000000))).map
              (fun o => (sheet_name o, rowsOf env o)) ∧
      (runExports env objs st).csvFiles
        = st.csvFiles
          ++ (objs.filter (fun o => exportOk env o
                && !(recordsOf env o).isEmpty
                && decide (1000000 ≤ (recordsOf env o).length))).map
              (fun o => (o ++ ".csv", rowsOf env o)) ∧
      (runExports env objs st).errors
        = st.errors
          ++ (objs.filter (fun o => !exportOk env o)).map (errMsgOf env) := by
  intro objs
  induction objs with
  | nil => intro st; simp [runExports]
  | cons o os ih =>
    intro st
    have hstep := export_step_effect env o st
    have hih := ih (export_salesforce_object env o st)
    have hrun : runExports env (o :: os) st
        = runExports env os (export_salesforce_object env o st) := rfl
    refine ⟨?_, ?_, ?_, ?_⟩
    · rw [hrun, hih.1, hstep.1, List.filter_cons]
      cases h : exportOk env o <;> simp [h]
    · rw [hrun, hih.2.1, hstep.2.1, List.filter_cons]
      cases h : (exportOk env o && !(recordsOf env o).isEmpty
          && decide ((recordsOf env o).length < 1000000)) <;> simp [h]
    · rw [hrun, hih.2.2.1, hstep.2.2.1, List.filter_cons]
      cases h : (exportOk env o && !(recordsOf env o).isEmpty
          && decide (1000000 ≤ (recordsOf env o).length)) <;> simp [h]
    · rw [hrun, hih.2.2.2, hstep.2.2.2, List.filter_cons]
      cases h : exportOk env o <;> simp [h]

/-- Had the body of the `async with` block been entered, the per-object
boundary (src/main.py:180-219) would isolate a failing object: its error
logged, no `Statistics` record carrying its name, and every other
(succeeding) object contributing its record and its materialized output.
This documents the intent coded into `export_salesforce_object`; the
program never reaches this code path (see `excelWriterAsyncEnter`). -/
lemma runExports_isolates_failure (env : SFEnv) (objs : List String)
    (bad : String)
    (hmem : bad ∈ objs) (hbad : exportOk env bad = false)
    (hothers : ∀ o ∈ objs, o ≠ bad → exportOk env o = true) :
    ((runExports env objs initState).statistics.map Statistics.object_name
        = objs.filter (fun o => o != bad)) ∧
    (∀ s ∈ (runExports env objs initState).statistics,
      s.object_name ≠ bad) ∧
    errMsgOf env bad ∈ (runExports env objs initState).errors ∧
    (∀ o ∈ objs, o ≠ bad → (recordsOf env o).isEmpty = false →
      ((recordsOf env o).length < 1000000 →
        (sheet_name o, rowsOf env o) ∈ (runExports env objs initState).sheets) ∧
      (1000000 ≤ (recordsOf env o).length →
        (o ++ ".csv", rowsOf env o)
          ∈ (runExports env objs initState).csvFiles)) := by
  have heff := runExports_effect env objs initState
  have hfeq : objs.filter (fun o => exportOk env o)
      = objs.filter (fun o => o != bad) := by
    apply List.filter_congr
    intro o ho
    by_cases h : o = bad
    · rw [h, hbad]
      simp
    · rw [hothers o ho h]
      simp [bne_iff_ne, h]
  have hstats : (runExports env objs initState).statistics.map
      Statistics.object_name = objs.filter (fun o => o != bad) := by
    rw [heff.1]
    simp only [initState, List.nil_append, List.map_map]
    rw [show Statistics.object_name ∘ statOf env = id from by
      funext o; simp [statOf]]
    rw [List.map_id, hfeq]
  refine ⟨hstats, ?_, ?_, ?_⟩
  · intro s hs
    have h1 : s.object_name ∈ objs.filter (fun o => o != bad) := by
      rw [← hstats]
      exact List.mem_map_of_mem Statistics.object_name hs
    have h2 := (List.mem_filter.mp h1).2
    simpa [bne_iff_ne] using h2
  · rw [heff.2.2.2]
    simp only [initState, List.nil_append]
    apply List.mem_map_of_mem (errMsgOf env)
    rw [List.mem_filter]
    exact ⟨hmem, by rw [hbad]; rfl⟩
  · intro o ho hne hrec
    constructor
    · intro hlt
      rw [heff.2.1]
      simp only [initState, List.nil_append]
      apply List.mem_map_of_mem (fun o => (sheet_name o, rowsOf env o))
      rw [List.mem_filter]
      refine ⟨ho, ?_⟩
      rw [hothers o ho hne, hrec]
      simp [hlt]
    · intro hge
      rw [heff.2.2.1]
      simp only [initState, List.nil_append]
      apply List.mem_map_of_mem (fun o => (o ++ ".csv", rowsOf env o))
      rw [List.mem_filter]
      refine ⟨ho, ?_⟩
      rw [hothers o ho hne, hrec]
      simp [hge]

/-- Environment on which the object "Bad" fails its metadata query and
every other object succeeds with one record. -/
def envC3 : SFEnv :=
  ⟨fun o => if o == "Bad" then Except.error "metadata query failed"
      else Except.ok [("Id", "Identifier")],
   fun o _ => if o == "Bad" then Except.error "query failed"
      else Except.ok [[("Id", "1")]],
   fun _ => (0, 2), "2020-01-02"⟩

/-- Claim C3 (code bug): the claim's per-object isolation is the intent
coded into `export_salesforce_object`, but the program cannot exhibit
it.  At the concrete run with objects ["Good", "Bad"] — where "Bad"'s
export would fail, "Good"'s would succeed, and no statistics file exists
— entering `async with pd.ExcelWriter` (src/main.py:254) raises before
any export starts and the top-level `except` catches it: no object is
exported, no `Statistics` record exists for any object, and the
statistics file is never written.  Had the `async with` body run, it
would have isolated the failure: sibling "Good" exported as a sheet with
its statistics record, and "Bad" only logged. -/
theorem pipeline_failure_not_isolated :
    (runPipeline envC3 ["Good", "Bad"] none).1.statistics = [] ∧
    (runPipeline envC3 ["Good", "Bad"] none).1.sheets = [] ∧
    (runPipeline envC3 ["Good", "Bad"] none).1.csvFiles = [] ∧
    (runPipeline envC3 ["Good", "Bad"] none).2 = none ∧
    (runPipeline envC3 ["Good", "Bad"] none).1.errors
      = ["Pipeline failed: object does not support the asynchronous context manager protocol"] ∧
    (runExports envC3 ["Good", "Bad"] initState).statistics.map
        Statistics.object_name = ["Good"] ∧
    (runExports envC3 ["Good", "Bad"] initState).errors
      = [errMsgOf envC3 "Bad"] ∧
    (runExports envC3 ["Good", "Bad"] initState).sheets
      = [(sheet_name "Good", rowsOf envC3 "Good")] := by
  exact ⟨rfl, rfl, rfl, rfl, rfl, rfl, rfl, rfl⟩

end Elevoniq
